import Mathlib

/-!
Verification development for the MT5 optimization-report analysis engine
(`report.py` of the repository, with `parser.py` providing ingestion and
`analyze.py` the batch driver).

Modelling conventions:
* IEEE floats are modelled as exact rationals (`ℚ`); the float square root
  used by the standard-deviation computation is abstracted as a parameter
  `sq : ℚ → ℚ` (no claim below depends on its values, because the only
  branch condition on the standard deviation, `std == 0 or isnan(std)`,
  is equivalent to `variance == 0 or count < 2`).
* A pandas cell is a `Val`: a number, a string, a boolean, or
  missing (`NaN`/`None` both map to `Val.missing`).
* Fallible code paths (pandas raising `AttributeError` on a scalar
  `.fillna`, or `KeyError` on a missing column) are modelled with
  `Except String`.
* HTML rendering is presentation and out of scope; recommendation cards
  are modelled by the structured data they are built from.
-/

namespace MT5

/-- Scalar cell value of a table: number, string, boolean, or missing
(pandas `NaN` / Python `None` are both modelled as `missing`). -/
inductive Val where
  | num (q : ℚ)
  | str (s : String)
  | bool (b : Bool)
  | missing
deriving DecidableEq

/-- A row is a finite map from column names to cell values,
represented as an association list. -/
abbrev Row := List (String × Val)

/-- A dataframe: ordered column names plus a list of rows. -/
structure DF where
  cols : List String
  rows : List Row
deriving DecidableEq

/-- Cell lookup; a column missing from the row reads as a missing value
(pandas `NaN`). -/
def cell (r : Row) (c : String) : Val :=
  ((r.find? (fun p => p.1 == c)).map Prod.snd).getD Val.missing

/-- Numeric coercion of a cell, `pd.to_numeric(·, errors="coerce")`:
non-numeric strings and missing cells become missing (`NaN`). -/
def toNumOpt : Val → Option ℚ
  | Val.num q => some q
  | Val.bool b => some (if b then 1 else 0)
  | _ => none

/-- Numeric coercion followed by `.fillna(0)`. -/
def toNum0 (v : Val) : ℚ := (toNumOpt v).getD 0

/-- Store an optional numeric value back into a cell (`NaN` for `none`). -/
def optToVal : Option ℚ → Val
  | some q => Val.num q
  | none => Val.missing

/-- The column `df[c]` as a list of cells. -/
def colVals (df : DF) (c : String) : List Val := df.rows.map (fun r => cell r c)

/-- An objective column: `pd.to_numeric(df[c], errors="coerce").fillna(0)`. -/
def objCol (df : DF) (c : String) : List ℚ := df.rows.map (fun r => toNum0 (cell r c))

/-- Update (or append) one cell of a row. -/
def setCell (r : Row) (c : String) (v : Val) : Row :=
  if r.any (fun p => p.1 == c) then r.map (fun p => if p.1 == c then (c, v) else p)
  else r ++ [(c, v)]

/-- Column assignment `df[c] = vs` (adds the column if absent). -/
def setCol (df : DF) (c : String) (vs : List Val) : DF :=
  ⟨if c ∈ df.cols then df.cols else df.cols ++ [c],
   df.rows.zipWith (fun r v => setCell r c v) vs⟩

/-- Whether an `Except` result is an error. -/
def isErr {α : Type} : Except String α → Bool
  | Except.error _ => true
  | Except.ok _ => false

/-- `DEFAULT_WEIGHTS` of `report.py`, in dict insertion order. -/
def DEFAULT_WEIGHTS : List (String × ℚ) :=
  [("profit", 0.30), ("drawdown", -0.25), ("sharpe_ratio", 0.20),
   ("profit_factor", 0.10), ("recovery_factor", 0.10), ("expected_payoff", 0.05)]

/-- `METRIC_DEF` of `report.py`: metric key, source column, derived z column
(the Chinese display labels are presentation only and omitted). -/
def METRIC_DEF : List (String × String × String) :=
  [("profit", "Profit", "z_profit"),
   ("drawdown", "Equity DD %", "z_drawdown"),
   ("sharpe_ratio", "Sharpe Ratio", "z_sharpe_ratio"),
   ("profit_factor", "Profit Factor", "z_profit_factor"),
   ("recovery_factor", "Recovery Factor", "z_recovery_factor"),
   ("expected_payoff", "Expected Payoff", "z_expected_payoff")]

/-- Mean of a list of rationals (used over the non-missing entries). -/
def sampleMean (l : List ℚ) : ℚ := l.sum / l.length

/-- Sample variance (denominator `n − 1`, pandas `ddof=1`). -/
def sampleVar (l : List ℚ) : ℚ :=
  (l.map (fun x => (x - sampleMean l) ^ 2)).sum / ((l.length : ℚ) - 1)

/-- `zscore` of `report.py`: coerce to numeric, and if the sample standard
deviation is zero or undefined return all zeros, else `(x − mean)/std`.
The guard `std == 0 or isnan(std)` of the source is expressed on the
variance: `std = √variance` is `0` iff the variance is `0`, and is `NaN`
iff fewer than 2 non-missing values exist; `sq` abstracts the float square
root. Non-missing cells keep a value, missing ones stay missing (`NaN`). -/
def zscore (sq : ℚ → ℚ) (col : List Val) : List (Option ℚ) :=
  let s := col.map toNumOpt
  let xs := s.filterMap id
  if xs.length < 2 ∨ sampleVar xs = 0 then s.map (fun _ => some 0)
  else s.map (Option.map (fun x => (x - sampleMean xs) / sq (sampleVar xs)))

/-- Round a rational to an integer, ties to even (Python `round`). -/
def roundHalfEven (q : ℚ) : ℤ :=
  if q - ⌊q⌋ < 1/2 then ⌊q⌋
  else if 1/2 < q - ⌊q⌋ then ⌊q⌋ + 1
  else if ⌊q⌋ % 2 = 0 then ⌊q⌋ else ⌊q⌋ + 1

/-- Python `round(q, d)`: round to `d` decimal digits. -/
def roundTo (d : Nat) (q : ℚ) : ℚ := (roundHalfEven (q * 10 ^ d) : ℚ) / 10 ^ d

/-- The digit-search loop of `format_step`: try `digits, digits+1, ...`
for `rem` more candidates, falling back to 6 digits. -/
def formatStepGo (v : ℚ) (digits : Nat) : Nat → ℚ
  | 0 => roundTo 6 v
  | rem + 1 =>
    if |roundTo digits v - v| < 1 / 10 ^ 10 then roundTo digits v
    else formatStepGo v (digits + 1) rem

/-- `format_step` of `report.py` on a non-`None` value: the smallest number
of decimal digits in `0..8` reconstructing the value within `1e-10`,
else 6 digits. -/
def formatStepQ (v : ℚ) : ℚ := formatStepGo v 0 9

/-- `format_step` of `report.py` (`None` maps to `None`). -/
def format_step : Option ℚ → Option ℚ := Option.map formatStepQ

/-- `add_z_scores` of `report.py`: for each metric whose source column is
present, add the derived z column (the pure view of the copy-then-assign
code; the aliasing behaviour is modelled separately by the heap programs
below). -/
def add_z_scores (sq : ℚ → ℚ) (df : DF) : DF :=
  METRIC_DEF.foldl (fun d m =>
    if m.2.1 ∈ d.cols then setCol d m.2.2 ((zscore sq (colVals d m.2.1)).map optToVal)
    else d) df

/-- `METRIC_DEF[key]` lookup (total on the six keys actually used). -/
def metricLookup (key : String) : Option (String × String) :=
  (METRIC_DEF.find? (fun m => m.1 == key)).map (fun m => m.2)

/-- Default weight of a metric key. -/
def weightLookup (key : String) : ℚ :=
  ((DEFAULT_WEIGHTS.find? (fun w => w.1 == key)).map (fun w => w.2)).getD 0

/-- The per-row score of `compute_default_score`: starting from `0.0`,
`score += weight * df[zcol]` for each default weight whose z column
exists; a missing (`NaN`) z value propagates and makes the score `NaN`
(modelled by `Option.bind`). The `metricLookup` miss branch is
unreachable: every weight key is in `METRIC_DEF`. -/
def pyScoreRow (cols : List String) (r : Row) : Option ℚ :=
  DEFAULT_WEIGHTS.foldl (fun acc kw =>
    match metricLookup kw.1 with
    | none => acc
    | some cz =>
      if cz.2 ∈ cols then
        acc.bind (fun a => (toNumOpt (cell r cz.2)).map (fun z => a + kw.2 * z))
      else acc)
    (some 0)

/-- `compute_default_score` of `report.py` (pure view of the copy). -/
def compute_default_score (df : DF) : DF :=
  setCol df "Score_Weighted" (df.rows.map (fun r => optToVal (pyScoreRow df.cols r)))

/-- `metricsConfig` of the generated report: the metrics whose source and
derived columns are both present. -/
def metricsConfig (cols : List String) : List (String × String × String) :=
  METRIC_DEF.filter (fun m => cols.contains m.2.1 && cols.contains m.2.2)

/-- JavaScript `Number(x)` on a JSON-serialised z cell: a serialised `NaN`
reads back as `NaN` (missing). Numeric-string parsing is not modelled;
z columns produced by the pipeline never hold strings. -/
def jsNum : Val → Option ℚ
  | Val.num q => some q
  | Val.bool b => some (if b then 1 else 0)
  | _ => none

/-- `recomputeScores` of the report script, per row, with the default
weights: sum `weight * z` over the configured metrics, skipping `NaN`
z values (`if (!isNaN(z)) s += w * z`). -/
def jsScoreRow (cols : List String) (r : Row) : ℚ :=
  (metricsConfig cols).foldl (fun s m =>
    match jsNum (cell r m.2.2) with
    | some z => s + weightLookup m.1 * z
    | none => s) 0

/-- The domination relation of `compute_pareto`: row `j` dominates row `i`
iff `j` is at least as good on profit and sharpe, at most as large on
drawdown, and strictly better on at least one of the three. -/
def Dominates (p s d : List ℚ) (j i : Nat) : Prop :=
  p.getD i 0 ≤ p.getD j 0 ∧ s.getD i 0 ≤ s.getD j 0 ∧ d.getD j 0 ≤ d.getD i 0 ∧
    (p.getD i 0 < p.getD j 0 ∨ s.getD i 0 < s.getD j 0 ∨ d.getD j 0 < d.getD i 0)

instance (p s d : List ℚ) (j i : Nat) : Decidable (Dominates p s d j i) := by
  unfold Dominates; infer_instance

/-- One iteration of the outer loop of `compute_pareto`: skip a row
already marked non-Pareto, otherwise scan every other row for a
dominator (the inner loop with `break` is the bounded `any`). -/
def paretoStep (p s d : List ℚ) (n : Nat) (flags : List Bool) (i : Nat) : List Bool :=
  if flags.getD i true then
    flags.set i (!((List.range n).any (fun j => j != i && decide (Dominates p s d j i))))
  else flags

/-- The flag array computed by the double loop of `compute_pareto`. -/
def paretoFlags (p s d : List ℚ) : List Bool :=
  (List.range p.length).foldl (paretoStep p s d p.length) (List.replicate p.length true)

/-- `compute_pareto` of `report.py`. An empty table returns an empty flag
series before any column access. Otherwise each objective column is read
with `pd.to_numeric(df.get(col, 0), errors="coerce").fillna(0)`: when the
column is absent `df.get` yields the scalar `0`, and calling `.fillna` on
a scalar raises `AttributeError`, modelled by the error case. -/
def computePareto (df : DF) : Except String (List Bool) :=
  if df.rows.length = 0 then Except.ok []
  else if "Profit" ∈ df.cols ∧ "Sharpe Ratio" ∈ df.cols ∧ "Equity DD %" ∈ df.cols then
    Except.ok (paretoFlags (objCol df "Profit") (objCol df "Sharpe Ratio")
      (objCol df "Equity DD %"))
  else Except.error "AttributeError: fillna called on a scalar default"

/-- The row filter of `generate_report` (lines 234-237): if a `Trades`
column exists keep the rows whose coerced trade count is positive,
otherwise pass the table through unchanged. -/
def filterRows (df : DF) : DF :=
  if "Trades" ∈ df.cols then
    ⟨df.cols, df.rows.filter (fun r => decide (0 < toNum0 (cell r "Trades")))⟩
  else df

/-- Stable insertion into a list sorted by the total boolean relation
`le`: the inserted element goes before the first element it may precede
(elements equal under `le` from earlier positions stay first). -/
def insSorted {α : Type} (le : α → α → Bool) (a : α) : List α → List α
  | [] => [a]
  | b :: t => if le a b then a :: b :: t else b :: insSorted le a t

/-- Stable sort by a total boolean relation. -/
def sortByB {α : Type} (le : α → α → Bool) (l : List α) : List α :=
  l.foldr (insSorted le) []

/-- Descending comparison of optional score keys with missing (`NaN`)
values last, as in `sort_values(..., ascending=False)`. -/
def keyGE : Option ℚ → Option ℚ → Bool
  | _, none => true
  | none, some _ => false
  | some x, some y => decide (y ≤ x)

/-- The `i`-th row of a table (positional, as pandas `iloc`). -/
def rowAt (df : DF) (i : Nat) : Row := df.rows.getD i []

/-- The `Score_Weighted` key of row `i`, for sorting. -/
def scoreKey (df : DF) (i : Nat) : Option ℚ := toNumOpt (cell (rowAt df i) "Score_Weighted")

/-- Row positions sorted by descending default composite score
(`df.sort_values("Score_Weighted", ascending=False)`). -/
def sortedIdxDesc (df : DF) : List Nat :=
  sortByB (fun a b => keyGE (scoreKey df a) (scoreKey df b)) (List.range df.rows.length)

/-- First position attaining the maximum value (pandas `idxmax`). -/
def argmaxFirst : List (Nat × ℚ) → Nat
  | [] => 0
  | x :: t => (t.foldl (fun best y => if best.2 < y.2 then y else best) x).1

/-- First position attaining the minimum value (pandas `idxmin`). -/
def argminFirst : List (Nat × ℚ) → Nat
  | [] => 0
  | x :: t => (t.foldl (fun best y => if y.2 < best.2 then y else best) x).1

/-- Quantile with linear interpolation on the sorted values
(pandas `Series.quantile`, default interpolation). -/
def quantileL (l : List ℚ) (q : ℚ) : ℚ :=
  let s := sortByB (fun a b => decide (a ≤ b)) l
  let pos := q * ((s.length : ℚ) - 1)
  let i := (⌊pos⌋).toNat
  let frac := pos - ⌊pos⌋
  match s.get? (i + 1) with
  | some hi => s.getD i 0 + frac * (hi - s.getD i 0)
  | none => s.getD i 0

/-- Strip the parameter-name marker for display:
`p[3:] if p.startswith("inp") else p`. -/
def stripInp (p : String) : String := if p.startsWith "inp" then p.drop 3 else p

/-- Structured content of a recommendation card (the HTML body text is
presentation and omitted; each card is identified by the data it is
built from: the chosen row position, or the stable-range lines). -/
inductive Card where
  | noData
  | aggressive (row : Nat)
  | balanced (row : Nat)
  | conservative (row : Nat)
  | stableRange (lines : List (String × ℚ × ℚ))
  | stableFallback
deriving DecidableEq

/-- The stable-range lines of the fourth card: for each parameter column,
the numeric values over the top subset, skipped when empty, else the
`[Q1, Q3]` interval (the source appends to `range_lines` in a loop). -/
def rangeLinesOf (df : DF) (ps : List String) (top : List Nat) : List (String × ℚ × ℚ) :=
  ps.foldl (fun acc p =>
    let vals := top.filterMap (fun i => toNumOpt (cell (rowAt df i) p))
    if vals.length = 0 then acc
    else acc ++ [(stripInp p, quantileL vals (1/4), quantileL vals (3/4))]) []

/-- `build_suggestion_cards` of `report.py`. An empty table yields the
single placeholder card. Otherwise the objective columns are read with
the scalar-default `.fillna` idiom (error when a column is absent, as in
`computePareto`), card 2 sorts by `Score_Weighted` (`KeyError` when
absent), and card 4 reads each parameter column (`KeyError` when absent);
the failure conditions are hoisted into guards. -/
def buildSuggestionCards (df : DF) (ps : List String) : Except String (List Card) :=
  if df.rows.length = 0 then Except.ok [Card.noData]
  else if "Profit" ∈ df.cols ∧ "Sharpe Ratio" ∈ df.cols ∧ "Equity DD %" ∈ df.cols ∧
      "Trades" ∈ df.cols then
    if "Score_Weighted" ∈ df.cols then
      if ∀ p ∈ ps, p ∈ df.cols then
        let profit := objCol df "Profit"
        let sharpe := objCol df "Sharpe Ratio"
        let dd := objCol df "Equity DD %"
        let trades := objCol df "Trades"
        let idxs := List.range df.rows.length
        let aggrPool0 := idxs.filter (fun i => decide (10 ≤ trades.getD i 0))
        let aggrPool := if aggrPool0.isEmpty then idxs else aggrPool0
        let rowAggr := argmaxFirst (aggrPool.map (fun i => (i, profit.getD i 0)))
        let rowBal := (sortedIdxDesc df).headD 0
        let consPool0 := idxs.filter (fun i =>
          decide (0 < profit.getD i 0) && decide (0 < sharpe.getD i 0))
        let consPool := if consPool0.isEmpty then idxs else consPool0
        let rowCons := argminFirst (consPool.map (fun i => (i, dd.getD i 0)))
        let top := (sortedIdxDesc df).take (max 10 (df.rows.length / 5))
        let lines := rangeLinesOf df ps top
        Except.ok [Card.aggressive rowAggr, Card.balanced rowBal, Card.conservative rowCons,
          if lines.isEmpty then Card.stableFallback else Card.stableRange lines]
      else Except.error "KeyError: parameter column"
    else Except.error "KeyError: Score_Weighted"
  else Except.error "AttributeError: fillna called on a scalar default"

/-- One entry of the parameter range and step table. -/
structure ParamRange where
  name : String
  min : Option ℚ
  max : Option ℚ
  step : ℚ
deriving DecidableEq

/-- Sorted distinct values, `sorted(col.dropna().unique())`. -/
def sortedDistinct (l : List ℚ) : List ℚ := sortByB (fun a b => decide (a ≤ b)) l.dedup

/-- The range/step summary of one parameter column (lines 258-272):
fewer than two distinct numeric values give step `0`, otherwise the step
is the snapped difference of the two smallest distinct values. -/
def paramRange (df : DF) (p : String) : ParamRange :=
  let vals := sortedDistinct ((colVals df p).filterMap toNumOpt)
  { name := stripInp p
    min := vals.head?
    max := vals.getLast?
    step := if 2 ≤ vals.length then formatStepQ (vals.getD 1 0 - vals.getD 0 0) else 0 }

/-- The analysis artifact assembled by `generate_report` (the data handed
to the renderer; the HTML template itself is presentation). -/
structure Report where
  totalRuns : Nat
  validCount : Nat
  paretoCount : Nat
  paretoFlags : List Bool
  paramRanges : List ParamRange
  cards : List Card
  finalDF : DF
deriving DecidableEq

/-- The body of `generate_report` after the row filter (lines 239 on):
z scores, default score, Pareto flags and `Is_Pareto` column, summary
counters, parameter ranges, and suggestion cards, in source order of
the possible failures (Pareto at line 246, the counters at line 252,
the parameter ranges at line 259, the cards at line 276). -/
def generateRest (sq : ℚ → ℚ) (df0 : DF) (ps : List String) : Except String Report :=
  let df1 := add_z_scores sq df0
  let df2 := compute_default_score df1
  match computePareto df2 with
  | Except.error e => Except.error e
  | Except.ok flags =>
    let df3 := setCol df2 "Is_Pareto" (flags.map Val.bool)
    if "Profit" ∈ df3.cols then
      if ∀ p ∈ ps, p ∈ df3.cols then
        match buildSuggestionCards df3 ps with
        | Except.error e => Except.error e
        | Except.ok cards =>
          Except.ok { totalRuns := df3.rows.length
                      validCount := ((objCol df3 "Profit").filter (fun x => decide (0 < x))).length
                      paretoCount := flags.count true
                      paretoFlags := flags
                      paramRanges := ps.map (paramRange df3)
                      cards := cards
                      finalDF := df3 }
      else Except.error "KeyError: parameter column"
    else Except.error "AttributeError: fillna called on a scalar default"

/-- `generate_report` of `report.py`: the row filter followed by the rest
of the pipeline on the filtered table. -/
def generateReport (sq : ℚ → ℚ) (df : DF) (ps : List String) : Except String Report :=
  generateRest sq (filterRows df) ps

/-! ### Heap model of the mutating pipeline

The Python functions mutate dataframe objects in place (`df[col] = ...`)
after taking a copy (`df = df.copy()`). To state that the caller's table
is never mutated, dataframes are placed in an explicit heap (a list of
`DF` objects addressed by position) and the three cited functions are
re-expressed as heap programs whose column assignments hit only the
freshly allocated copies. -/

/-- A heap of dataframe objects. -/
structure Heap where
  dfs : List DF
deriving DecidableEq

/-- Read a reference. -/
def heapGet (h : Heap) (r : Nat) : DF := h.dfs.getD r ⟨[], []⟩

/-- Allocate a fresh object, returning its reference. -/
def heapAlloc (h : Heap) (d : DF) : Nat × Heap := (h.dfs.length, ⟨h.dfs ++ [d]⟩)

/-- `df.copy()`. -/
def dfCopy (h : Heap) (r : Nat) : Nat × Heap := heapAlloc h (heapGet h r)

/-- In-place column assignment `df[c] = vs` on the object at `r`. -/
def dfSetColM (h : Heap) (r : Nat) (c : String) (vs : List Val) : Heap :=
  ⟨h.dfs.set r (setCol (heapGet h r) c vs)⟩

/-- `add_z_scores` as a heap program: copy, then assign each z column on
the copy. -/
def add_z_scores_prog (sq : ℚ → ℚ) (h : Heap) (r : Nat) : Nat × Heap :=
  let p := dfCopy h r
  let h2 := METRIC_DEF.foldl (fun hh m =>
    if m.2.1 ∈ (heapGet hh p.1).cols then
      dfSetColM hh p.1 m.2.2 ((zscore sq (colVals (heapGet hh p.1) m.2.1)).map optToVal)
    else hh) p.2
  (p.1, h2)

/-- `compute_default_score` as a heap program: copy, then assign the
`Score_Weighted` column on the copy. -/
def compute_default_score_prog (h : Heap) (r : Nat) : Nat × Heap :=
  let p := dfCopy h r
  let d := heapGet p.2 p.1
  (p.1, dfSetColM p.2 p.1 "Score_Weighted" (d.rows.map (fun row => optToVal (pyScoreRow d.cols row))))

/-- Lines 232-247 of `generate_report` as a heap program: `df = df.copy()`,
the row filter (which builds a new object when a `Trades` column exists,
and otherwise keeps the same reference), the two score passes, and the
in-place `df["Is_Pareto"] = pareto_flag` assignment on the final copy. -/
def generate_report_prog (sq : ℚ → ℚ) (h : Heap) (r : Nat) : (Except String Nat) × Heap :=
  let p1 := dfCopy h r
  let p2 := if "Trades" ∈ (heapGet p1.2 p1.1).cols then
      heapAlloc p1.2 (filterRows (heapGet p1.2 p1.1))
    else p1
  let p3 := add_z_scores_prog sq p2.2 p2.1
  let p4 := compute_default_score_prog p3.2 p3.1
  match computePareto (heapGet p4.2 p4.1) with
  | Except.error e => (Except.error e, p4.2)
  | Except.ok flags => (Except.ok p4.1, dfSetColM p4.2 p4.1 "Is_Pareto" (flags.map Val.bool))

/-! ### Characterization of the Pareto scan -/

/-- The Boolean value assigned to row `i` by the dominator scan. -/
def flagVal (p s d : List ℚ) (n i : Nat) : Bool :=
  !((List.range n).any (fun j => j != i && decide (Dominates p s d j i)))

theorem paretoStep_length (p s d : List ℚ) (n : Nat) (flags : List Bool) (i : Nat) :
    (paretoStep p s d n flags i).length = flags.length := by
  unfold paretoStep; split <;> simp

theorem paretoFold_length (p s d : List ℚ) (n : Nat) (l : List Nat) (flags : List Bool) :
    (l.foldl (paretoStep p s d n) flags).length = flags.length := by
  induction l generalizing flags with
  | nil => rfl
  | cons a t ih => rw [List.foldl_cons, ih, paretoStep_length]

theorem paretoFold_get (p s d : List ℚ) (n : Nat) (k : Nat) (hk : k ≤ n) :
    ∀ i, i < n →
      ((List.range k).foldl (paretoStep p s d n) (List.replicate n true))[i]?
        = some (if i < k then flagVal p s d n i else true) := by
  induction k with
  | zero =>
    intro i hi
    simp [List.getElem?_replicate, hi]
  | succ k ih =>
    intro i hi
    have hk' : k ≤ n := Nat.le_of_succ_le hk
    have hkn : k < n := hk
    have hlen : ((List.range k).foldl (paretoStep p s d n) (List.replicate n true)).length = n := by
      rw [paretoFold_length, List.length_replicate]
    have hprevk := ih hk' k hkn
    rw [if_neg (lt_irrefl k)] at hprevk
    have hihi := ih hk' i hi
    rw [List.range_succ, List.foldl_append, List.foldl_cons, List.foldl_nil]
    generalize hgen : (List.range k).foldl (paretoStep p s d n) (List.replicate n true) = prev
      at hprevk hlen hihi ⊢
    unfold paretoStep
    rw [List.getD_eq_getElem?_getD, hprevk]
    simp only [Option.getD_some, eq_self_iff_true, if_true]
    rcases eq_or_ne i k with rfl | hne
    · rw [List.getElem?_set_eq_of_lt _ (by rw [hlen]; exact hkn),
        if_pos (Nat.lt_succ_of_le (Nat.le_refl i))]
      rfl
    · rw [List.getElem?_set_ne (fun hc => hne hc.symm), hihi]
      by_cases hik : i < k
      · rw [if_pos hik, if_pos (Nat.lt_succ_of_lt hik)]
      · rw [if_neg hik, if_neg (fun hc => hik (Nat.lt_of_le_of_ne (Nat.lt_succ_iff.1 hc) hne))]

theorem paretoFlags_getElem (p s d : List ℚ) (i : Nat) (hi : i < p.length) :
    (paretoFlags p s d)[i]? = some (flagVal p s d p.length i) := by
  unfold paretoFlags
  rw [paretoFold_get p s d p.length p.length (Nat.le_refl _) i hi, if_pos hi]

theorem flagVal_eq_true_iff (p s d : List ℚ) (n i : Nat) :
    flagVal p s d n i = true ↔ ¬ ∃ j, j < n ∧ j ≠ i ∧ Dominates p s d j i := by
  unfold flagVal
  simp only [Bool.not_eq_true', List.any_eq_false, List.mem_range, Bool.and_eq_true,
    bne_iff_ne, decide_eq_true_eq, not_exists, not_and]

/-- C1: for every table on which the Pareto classifier succeeds, row `i` is
flagged true iff no other row dominates it, where the three objectives are
the Profit, Sharpe Ratio and Equity DD % columns coerced to numeric with
missing values as 0, and `j` dominates `i` iff `j` is at least as good on
all three and strictly better on at least one; rows equal on all three
axes never dominate each other. -/
theorem c1_pareto_flag_iff_not_dominated (df : DF) (flags : List Bool)
    (h : computePareto df = Except.ok flags) (i : Nat) (hi : i < df.rows.length) :
    (flags[i]? = some true ↔
      ¬ ∃ j, j < df.rows.length ∧ j ≠ i ∧
        Dominates (objCol df "Profit") (objCol df "Sharpe Ratio") (objCol df "Equity DD %") j i)
    ∧ ∀ j, (objCol df "Profit").getD j 0 = (objCol df "Profit").getD i 0 →
        (objCol df "Sharpe Ratio").getD j 0 = (objCol df "Sharpe Ratio").getD i 0 →
        (objCol df "Equity DD %").getD j 0 = (objCol df "Equity DD %").getD i 0 →
        ¬ Dominates (objCol df "Profit") (objCol df "Sharpe Ratio") (objCol df "Equity DD %") j i := by
  constructor
  · unfold computePareto at h
    split at h
    · omega
    · split at h
      · injection h with h'
        subst h'
        have hp : (objCol df "Profit").length = df.rows.length := List.length_map _ _
        rw [paretoFlags_getElem _ _ _ i (by rw [hp]; exact hi), hp]
        rw [Option.some_inj]
        exact flagVal_eq_true_iff _ _ _ _ _
      · cases h
  · intro j h1 h2 h3 hd
    obtain ⟨_, _, _, hstrict⟩ := hd
    rcases hstrict with hlt | hlt | hlt
    · rw [h1] at hlt; exact lt_irrefl _ hlt
    · rw [h2] at hlt; exact lt_irrefl _ hlt
    · rw [h3] at hlt; exact lt_irrefl _ hlt

/-- Any non-empty index range contains a row dominated by no other: the
row maximal in the lexicographic order on (profit, sharpe, −drawdown). -/
theorem exists_nondominated (p s d : List ℚ) (n : Nat) (hn : 0 < n) :
    ∃ i, i < n ∧ ∀ j, j < n → ¬ Dominates p s d j i := by
  obtain ⟨b, hb, hmax⟩ := Finset.exists_max_image (Finset.range n)
    (fun i => toLex ((p.getD i 0), toLex ((s.getD i 0), -(d.getD i 0))))
    ⟨0, Finset.mem_range.2 hn⟩
  refine ⟨b, Finset.mem_range.1 hb, ?_⟩
  intro j hj hd
  obtain ⟨h1, h2, h3, h4⟩ := hd
  have hle := hmax j (Finset.mem_range.2 hj)
  have hlt : toLex ((p.getD b 0), toLex ((s.getD b 0), -(d.getD b 0))) <
      toLex ((p.getD j 0), toLex ((s.getD j 0), -(d.getD j 0))) := by
    rcases lt_or_eq_of_le h1 with hp | hp
    · exact (Prod.Lex.lt_iff _ _).2 (Or.inl hp)
    · refine (Prod.Lex.lt_iff _ _).2 (Or.inr ⟨hp, ?_⟩)
      rcases lt_or_eq_of_le h2 with hs | hs
      · exact (Prod.Lex.lt_iff _ _).2 (Or.inl hs)
      · refine (Prod.Lex.lt_iff _ _).2 (Or.inr ⟨hs, ?_⟩)
        rcases h4 with hc | hc | hc
        · rw [hp] at hc; exact absurd hc (lt_irrefl _)
        · rw [hs] at hc; exact absurd hc (lt_irrefl _)
        · exact neg_lt_neg hc
  exact absurd hle (not_le.2 hlt)

/-- C3: whenever the Pareto classifier succeeds, a non-empty filtered table
has at least one row flagged true, and an empty table yields an empty flag
set. -/
theorem c3_front_nonempty (df : DF) (flags : List Bool)
    (h : computePareto df = Except.ok flags) :
    (df.rows ≠ [] → ∃ i : Nat, flags[i]? = some true) ∧ (df.rows = [] → flags = []) := by
  constructor
  · intro hne
    unfold computePareto at h
    split at h
    · exact absurd (List.length_eq_zero.1 ‹df.rows.length = 0›) hne
    · split at h
      · injection h with h'
        subst h'
        have hn : 0 < df.rows.length := List.length_pos.2 hne
        have hp : (objCol df "Profit").length = df.rows.length := List.length_map _ _
        obtain ⟨b, hbn, hnd⟩ := exists_nondominated (objCol df "Profit")
          (objCol df "Sharpe Ratio") (objCol df "Equity DD %") df.rows.length hn
        refine ⟨b, ?_⟩
        rw [paretoFlags_getElem _ _ _ b (by rw [hp]; exact hbn), hp]
        have : flagVal (objCol df "Profit") (objCol df "Sharpe Ratio") (objCol df "Equity DD %")
            df.rows.length b = true := by
          rw [flagVal_eq_true_iff]
          rintro ⟨j, hj, -, hd⟩
          exact hnd j hj hd
        rw [this]
      · cases h
  · intro he
    unfold computePareto at h
    rw [he] at h
    simp only [List.length_nil, if_pos rfl] at h
    injection h with h'
    exact h'.symm

/-- A one-row table with a `Trades` column but none of the three objective
columns: `compute_pareto` and `build_suggestion_cards` reach the scalar
`.fillna` call on it. -/
def c4df : DF := ⟨["Trades"], [[("Trades", Val.num 5)]]⟩

/-- C4 (code bug): on a well-formed non-empty table whose objective source
columns are entirely absent, the Pareto classifier, the Recommendation
Engine, and the whole report pipeline raise instead of treating the absent
columns as 0: `pd.to_numeric(df.get(col, 0), ...).fillna(0)` calls
`.fillna` on the scalar default `0`, an `AttributeError`. -/
theorem c4_absent_column_raises :
    isErr (computePareto c4df) = true ∧ isErr (buildSuggestionCards c4df []) = true ∧
      isErr (generateReport (fun q => q) c4df []) = true := by decide

/-- C5: for every metric column whose sample standard deviation is zero or
undefined (fewer than 2 non-missing numeric values), the normalizer assigns
standardized value exactly 0 to every row, and in the remaining branch the
variance it divides through is provably non-zero (no division by zero),
for every choice of the abstracted float square root `sq`. -/
theorem c5_zscore_degenerate (sq : ℚ → ℚ) (col : List Val) :
    (((col.map toNumOpt).filterMap id).length < 2 ∨
        sampleVar ((col.map toNumOpt).filterMap id) = 0 →
      zscore sq col = col.map (fun _ => some 0)) ∧
    (¬(((col.map toNumOpt).filterMap id).length < 2 ∨
        sampleVar ((col.map toNumOpt).filterMap id) = 0) →
      sampleVar ((col.map toNumOpt).filterMap id) ≠ 0 ∧
        2 ≤ ((col.map toNumOpt).filterMap id).length) := by
  constructor
  · intro h
    unfold zscore
    rw [if_pos h, List.map_map]
    rfl
  · intro h
    rw [not_or] at h
    exact ⟨h.2, Nat.le_of_not_lt h.1⟩

/-- Witness for C5 at a concrete constant column with a non-numeric cell. -/
theorem c5_witness :
    zscore (fun q => q) [Val.num 5, Val.num 5, Val.str "x"] = [some 0, some 0, some 0] :=
  ((c5_zscore_degenerate (fun q => q) [Val.num 5, Val.num 5, Val.str "x"]).1
    (by with_unfolding_all decide)).trans rfl

/-- The three-row scenario of the specification (rows A, B, C): A and B are
on the front, C is dominated by both. -/
def exDF : DF :=
  ⟨["inpX", "Profit", "Sharpe Ratio", "Equity DD %", "Trades"],
   [[("inpX", Val.num 1), ("Profit", Val.num 100), ("Sharpe Ratio", Val.num 1),
     ("Equity DD %", Val.num 5), ("Trades", Val.num 20)],
    [("inpX", Val.num 2), ("Profit", Val.num 80), ("Sharpe Ratio", Val.num (12/10)),
     ("Equity DD %", Val.num 3), ("Trades", Val.num 15)],
    [("inpX", Val.num 3), ("Profit", Val.num 50), ("Sharpe Ratio", Val.num (1/2)),
     ("Equity DD %", Val.num 10), ("Trades", Val.num 5)]]⟩

/-- Witness for C1 on the specification scenario table, at row A. -/
theorem c1_witness :
    [true, true, false][0]? = some true ↔
      ¬ ∃ j, j < exDF.rows.length ∧ j ≠ 0 ∧
        Dominates (objCol exDF "Profit") (objCol exDF "Sharpe Ratio")
          (objCol exDF "Equity DD %") j 0 :=
  (c1_pareto_flag_iff_not_dominated exDF [true, true, false]
    (by with_unfolding_all rfl) 0 (by with_unfolding_all decide)).1

/-- Witness for C3 on the specification scenario table. -/
theorem c3_witness : ∃ i : Nat, [true, true, false][i]? = some true :=
  (c3_front_nonempty exDF [true, true, false] (by with_unfolding_all rfl)).1
    (by with_unfolding_all decide)

/-- C6: the row filter of `generate_report`. With a `Trades` column, the
filtered table keeps exactly the rows whose coerced trade count is
positive (every surviving row has trade count `> 0`); without it, the
filtered table is the input table; and the rest of the pipeline
(z scores, default score, Pareto flags, counters, ranges, cards) is
computed from the filtered table alone. -/
theorem c6_row_filter (sq : ℚ → ℚ) (df : DF) (ps : List String) :
    ("Trades" ∈ df.cols →
      (filterRows df).cols = df.cols ∧
      (filterRows df).rows = df.rows.filter (fun r => decide (0 < toNum0 (cell r "Trades"))) ∧
      ∀ r ∈ (filterRows df).rows, 0 < toNum0 (cell r "Trades"))
    ∧ ("Trades" ∉ df.cols → filterRows df = df)
    ∧ generateReport sq df ps = generateRest sq (filterRows df) ps := by
  refine ⟨?_, ?_, rfl⟩
  · intro hmem
    unfold filterRows
    rw [if_pos hmem]
    refine ⟨rfl, rfl, ?_⟩
    intro r hr
    have := (List.mem_filter.1 hr).2
    exact of_decide_eq_true this
  · intro hmem
    unfold filterRows
    rw [if_neg hmem]

/-- Witness for C6 on the scenario table (its `Trades` column is present
and every trade count is positive, so no row is dropped). -/
theorem c6_witness :
    (filterRows exDF).cols = exDF.cols ∧
    (filterRows exDF).rows =
      exDF.rows.filter (fun r => decide (0 < toNum0 (cell r "Trades"))) ∧
    ∀ r ∈ (filterRows exDF).rows, 0 < toNum0 (cell r "Trades") :=
  (c6_row_filter (fun q => q) exDF []).1 (by with_unfolding_all decide)

/-! ### The step-snapping loop -/

theorem formatStepGo_found (v : ℚ) (dd : Nat) (hd8 : dd ≤ 8)
    (htol : |roundTo dd v - v| < 1 / 10 ^ 10)
    (hmin : ∀ e, e < dd → ¬ |roundTo e v - v| < 1 / 10 ^ 10) :
    ∀ rem digits, digits + rem = 9 → digits ≤ dd →
      (∀ e, digits ≤ e → e < dd → ¬ |roundTo e v - v| < 1 / 10 ^ 10) →
      formatStepGo v digits rem = roundTo dd v := by
  intro rem
  induction rem with
  | zero =>
    intro digits h9 hle _
    omega
  | succ rem ih =>
    intro digits h9 hle hnone
    unfold formatStepGo
    rcases eq_or_lt_of_le hle with rfl | hlt
    · rw [if_pos htol]
    · rw [if_neg (hnone digits (Nat.le_refl _) hlt)]
      exact ih (digits + 1) (by omega) hlt (fun e he1 he2 => hnone e (by omega) he2)

theorem formatStepGo_fallback (v : ℚ)
    (hfail : ∀ e, e ≤ 8 → ¬ |roundTo e v - v| < 1 / 10 ^ 10) :
    ∀ rem digits, digits + rem = 9 → formatStepGo v digits rem = roundTo 6 v := by
  intro rem
  induction rem with
  | zero => intro digits _; rfl
  | succ rem ih =>
    intro digits h9
    unfold formatStepGo
    rw [if_neg (hfail digits (by omega))]
    exact ih (digits + 1) (by omega)

/-- C7: `format_step` on a non-`None` value `v` returns `round(v, d)` for
the smallest `d` in `0..8` such that `|round(v, d) − v| < 1e-10`, and
`round(v, 6)` when no such `d` exists; on the two concrete inputs of the
specification, `0.020000000000000018` snaps to `0.02` and `1.0` stays `1`. -/
theorem c7_format_step :
    (∀ v : ℚ, ∀ d : Nat, d ≤ 8 → |roundTo d v - v| < 1 / 10 ^ 10 →
      (∀ e, e < d → ¬ |roundTo e v - v| < 1 / 10 ^ 10) →
      format_step (some v) = some (roundTo d v))
    ∧ (∀ v : ℚ, (∀ d, d ≤ 8 → ¬ |roundTo d v - v| < 1 / 10 ^ 10) →
      format_step (some v) = some (roundTo 6 v))
    ∧ format_step (some (0.020000000000000018 : ℚ)) = some (1/50)
    ∧ format_step (some 1) = some 1
    ∧ format_step none = none := by
  refine ⟨?_, ?_, ?_, ?_, rfl⟩
  · intro v dd hd8 htol hmin
    show some (formatStepQ v) = _
    unfold formatStepQ
    rw [formatStepGo_found v dd hd8 htol hmin 9 0 rfl (Nat.zero_le _)
      (fun e _ he2 => hmin e he2)]
  · intro v hfail
    show some (formatStepQ v) = _
    unfold formatStepQ
    rw [formatStepGo_fallback v hfail 9 0 rfl]
  · with_unfolding_all rfl
  · with_unfolding_all rfl

/-- Witness for C7: at `v = 37/30` no precision in `0..8` reconstructs the
value within the tolerance, and `format_step` falls back to 6 digits. -/
theorem c7_witness : format_step (some (37/30 : ℚ)) = some (roundTo 6 (37/30 : ℚ)) :=
  c7_format_step.2.1 (37/30 : ℚ) (by with_unfolding_all decide)

/-! ### Agreement and divergence of the two score computations -/

/-- Whether a cell holds a number. -/
def isNumCell : Val → Bool
  | Val.num _ => true
  | _ => false

theorem isNumCell_iff (v : Val) : isNumCell v = true ↔ ∃ q, v = Val.num q := by
  cases v <;> simp [isNumCell]

theorem score_agree_aux (cols : List String) (r : Row) :
    ∀ l : List (String × String × String),
      (∀ m ∈ l, m.2.2 ∈ cols → m.2.1 ∈ cols ∧ ∃ q, cell r m.2.2 = Val.num q) →
      ∀ acc : ℚ,
        l.foldl (fun acc2 m =>
            if m.2.2 ∈ cols then
              acc2.bind (fun a => (toNumOpt (cell r m.2.2)).map (fun z => a + weightLookup m.1 * z))
            else acc2) (some acc)
          = some ((l.filter (fun m => cols.contains m.2.1 && cols.contains m.2.2)).foldl
              (fun s m => match jsNum (cell r m.2.2) with
                | some z => s + weightLookup m.1 * z
                | none => s) acc) := by
  intro l
  induction l with
  | nil => intro _ acc; rfl
  | cons m t ih =>
    intro h acc
    rw [List.foldl_cons, List.filter_cons]
    by_cases hz : m.2.2 ∈ cols
    · obtain ⟨hc, q, hq⟩ := h m (List.mem_cons_self m t) hz
      have hcont : (cols.contains m.2.1 && cols.contains m.2.2) = true := by
        rw [Bool.and_eq_true]
        exact ⟨List.elem_eq_true_of_mem hc, List.elem_eq_true_of_mem hz⟩
      rw [if_pos hz, if_pos hcont, List.foldl_cons, hq]
      show t.foldl _ (some (acc + weightLookup m.1 * q)) = _
      exact ih (fun m2 hm2 => h m2 (List.mem_cons_of_mem m hm2)) (acc + weightLookup m.1 * q)
    · have hcont : (cols.contains m.2.1 && cols.contains m.2.2) = false := by
        have : cols.contains m.2.2 = false := by simpa using hz
        rw [this, Bool.and_false]
      rw [if_neg hz, hcont]
      simp only [Bool.false_eq_true, if_false]
      exact ih (fun m2 hm2 => h m2 (List.mem_cons_of_mem m hm2)) acc

/-- C2 (amended): over the frozen z values, the initial Python score
(`compute_default_score`) and the report's recomputation with the default
weights (`recomputeScores`) agree on every row whose configured z cells
are all numeric (and whose z columns only exist alongside their source
columns, as the pipeline guarantees). The unamended claim is refuted in
`c2_counterexample`: on a `NaN` z value Python propagates `NaN` into the
score while the recomputation skips the term. -/
theorem c2_scores_agree (cols : List String) (r : Row)
    (h : ∀ m ∈ METRIC_DEF, m.2.2 ∈ cols →
      m.2.1 ∈ cols ∧ isNumCell (cell r m.2.2) = true) :
    pyScoreRow cols r = some (jsScoreRow cols r) :=
  score_agree_aux cols r METRIC_DEF
    (fun m hm hz => ⟨(h m hm hz).1, (isNumCell_iff _).1 (h m hm hz).2⟩) 0

/-- Witness for C2 on a concrete numeric z row. -/
theorem c2_witness :
    pyScoreRow ["Profit", "z_profit"] [("Profit", Val.num 1), ("z_profit", Val.num 2)]
      = some (jsScoreRow ["Profit", "z_profit"] [("Profit", Val.num 1), ("z_profit", Val.num 2)]) :=
  c2_scores_agree ["Profit", "z_profit"] [("Profit", Val.num 1), ("z_profit", Val.num 2)]
    (by with_unfolding_all decide)

/-- A row of a standardized table in which the z value is `NaN`: it arises
from a non-numeric `Profit` cell in a column whose other entries have
non-zero variance (e.g. `Profit = ["abc", 0, 1]`), since the normalizer
leaves a missing standardized value for the non-numeric cell. -/
def c2row : Row := [("Profit", Val.str "abc"), ("z_profit", Val.missing)]

/-- Counterexample to C2 as stated: on `c2row` the Python pass produces a
`NaN` score (`none`) while the recomputation produces `0`; the two
computations numerically diverge on this row. -/
theorem c2_counterexample :
    pyScoreRow ["Profit", "z_profit"] c2row = none ∧
      jsScoreRow ["Profit", "z_profit"] c2row = 0 ∧
      pyScoreRow ["Profit", "z_profit"] c2row ≠
        some (jsScoreRow ["Profit", "z_profit"] c2row) := by
  with_unfolding_all decide

/-! ### The Stable Range card -/

/-- The Stable Range card as the specification words it (spec-side
definition, for comparison with the source embedding): take the top
`max(10, ⌊n/5⌋)` rows by descending default composite score; for each
parameter column with at least one numeric value in that subset report the
`[Q1, Q3]` interval of those values (parameters with no numeric values are
skipped); emit the fallback message when no parameter yields a range. -/
def stableRangeSpecCard (df : DF) (ps : List String) : Card :=
  let top := (sortedIdxDesc df).take (max 10 (df.rows.length / 5))
  let lines := ps.filterMap (fun p =>
    let vals := top.filterMap (fun i => toNumOpt (cell (rowAt df i) p))
    if vals.length = 0 then none
    else some (stripInp p, quantileL vals (1/4), quantileL vals (3/4)))
  if lines.isEmpty then Card.stableFallback else Card.stableRange lines

theorem rangeLinesOf_aux (df : DF) (top : List Nat) :
    ∀ (ps : List String) (acc : List (String × ℚ × ℚ)),
      ps.foldl (fun acc2 p =>
          let vals := top.filterMap (fun i => toNumOpt (cell (rowAt df i) p))
          if vals.length = 0 then acc2
          else acc2 ++ [(stripInp p, quantileL vals (1/4), quantileL vals (3/4))]) acc
        = acc ++ ps.filterMap (fun p =>
            let vals := top.filterMap (fun i => toNumOpt (cell (rowAt df i) p))
            if vals.length = 0 then none
            else some (stripInp p, quantileL vals (1/4), quantileL vals (3/4))) := by
  intro ps
  induction ps with
  | nil => intro acc; simp
  | cons p t ih =>
    intro acc
    rw [List.foldl_cons, List.filterMap_cons]
    dsimp only
    split
    · rw [ih acc]
    · rw [ih (acc ++ [_]), List.append_assoc]
      rfl

theorem rangeLinesOf_eq_filterMap (df : DF) (ps : List String) (top : List Nat) :
    rangeLinesOf df ps top = ps.filterMap (fun p =>
      let vals := top.filterMap (fun i => toNumOpt (cell (rowAt df i) p))
      if vals.length = 0 then none
      else some (stripInp p, quantileL vals (1/4), quantileL vals (3/4))) := by
  have := rangeLinesOf_aux df top ps []
  simpa [rangeLinesOf] using this

/-- C8: whenever the Recommendation Engine succeeds on a non-empty filtered
table, it produces four cards and the last one is exactly the Stable Range
card of the specification: built from the top `max(10, ⌊n/5⌋)` rows by
descending default composite score, with a `[Q1, Q3]` interval per
parameter column that has numeric values in the subset, and the fallback
message when no parameter yields a range. -/
theorem c8_stable_range (df : DF) (ps : List String) (cards : List Card)
    (hne : df.rows ≠ []) (h : buildSuggestionCards df ps = Except.ok cards) :
    cards.length = 4 ∧ cards[3]? = some (stableRangeSpecCard df ps) := by
  unfold buildSuggestionCards at h
  rw [if_neg (fun hc => hne (List.length_eq_zero.1 hc))] at h
  split at h
  · split at h
    · split at h
      · injection h with hc
        subst hc
        refine ⟨rfl, ?_⟩
        show some _ = some _
        rw [Option.some_inj]
        unfold stableRangeSpecCard
        rw [rangeLinesOf_eq_filterMap]
        rfl
      · cases h
    · cases h
  · cases h

/-- A one-row table (already scored) for the C8 witness. -/
def wdf8 : DF :=
  ⟨["inpX", "Profit", "Sharpe Ratio", "Equity DD %", "Trades", "Score_Weighted"],
   [[("inpX", Val.num 7), ("Profit", Val.num 100), ("Sharpe Ratio", Val.num 1),
     ("Equity DD %", Val.num 5), ("Trades", Val.num 15), ("Score_Weighted", Val.num 2)]]⟩

/-- Witness for C8 on `wdf8`. -/
theorem c8_witness :
    ([Card.aggressive 0, Card.balanced 0, Card.conservative 0,
        Card.stableRange [("X", 7, 7)]] : List Card).length = 4 ∧
      ([Card.aggressive 0, Card.balanced 0, Card.conservative 0,
        Card.stableRange [("X", 7, 7)]] : List Card)[3]? =
        some (stableRangeSpecCard wdf8 ["inpX"]) :=
  c8_stable_range wdf8 ["inpX"] _ (by with_unfolding_all decide) (by with_unfolding_all rfl)

/-! ### The empty filtered table -/

theorem filterRows_cols (df : DF) : (filterRows df).cols = df.cols := by
  unfold filterRows; split <;> rfl

theorem setCol_cols_mem {df : DF} {c0 : String} (c : String) (vs : List Val)
    (h : c0 ∈ df.cols) : c0 ∈ (setCol df c vs).cols := by
  unfold setCol
  dsimp only
  split
  · exact h
  · exact List.mem_append_left _ h

theorem setCol_rows_nil {df : DF} (c : String) (vs : List Val)
    (h : df.rows = []) : (setCol df c vs).rows = [] := by
  unfold setCol
  dsimp only
  rw [h]
  rfl

theorem foldl_pres {α : Type} (step : DF → α → DF) (P : DF → Prop)
    (hstep : ∀ d a, P d → P (step d a)) :
    ∀ (l : List α) (d : DF), P d → P (l.foldl step d) := by
  intro l
  induction l with
  | nil => intro d h; exact h
  | cons a t ih => intro d h; exact ih _ (hstep d a h)

theorem add_z_scores_cols_mem (sq : ℚ → ℚ) {df : DF} {c0 : String}
    (h : c0 ∈ df.cols) : c0 ∈ (add_z_scores sq df).cols := by
  unfold add_z_scores
  refine foldl_pres _ (fun d => c0 ∈ d.cols) ?_ METRIC_DEF df h
  intro d m hd
  dsimp only
  split
  · exact setCol_cols_mem _ _ hd
  · exact hd

theorem add_z_scores_rows_nil (sq : ℚ → ℚ) {df : DF}
    (h : df.rows = []) : (add_z_scores sq df).rows = [] := by
  unfold add_z_scores
  refine foldl_pres _ (fun d => d.rows = []) ?_ METRIC_DEF df h
  intro d m hd
  dsimp only
  split
  · exact setCol_rows_nil _ _ hd
  · exact hd

theorem computePareto_nil {df : DF} (h : df.rows = []) :
    computePareto df = Except.ok [] := by
  unfold computePareto
  rw [if_pos (by rw [h]; rfl)]

/-- C9 (amended): for an empty filtered table the pipeline succeeds — one
placeholder card, empty Pareto flag set, and zero counters — provided the
`Profit` source column is present in the table (and the parameter columns
exist, as ingestion guarantees); without `Profit` the summary-counter
computation hits the scalar-default `.fillna` defect of C4 even on an
empty table, as `c9_counterexample` shows. -/
theorem c9_empty_report (sq : ℚ → ℚ) (df : DF) (ps : List String)
    (hp : "Profit" ∈ df.cols) (hps : ∀ p ∈ ps, p ∈ df.cols)
    (he : (filterRows df).rows = []) :
    ∃ rep, generateReport sq df ps = Except.ok rep ∧ rep.cards = [Card.noData] ∧
      rep.cards.length = 1 ∧ rep.paretoFlags = [] ∧ rep.totalRuns = 0 ∧
      rep.validCount = 0 ∧ rep.paretoCount = 0 := by
  have h0 : (filterRows df).cols = df.cols := filterRows_cols df
  have h1r : (add_z_scores sq (filterRows df)).rows = [] := add_z_scores_rows_nil sq he
  have h2r : (compute_default_score (add_z_scores sq (filterRows df))).rows = [] :=
    setCol_rows_nil _ _ h1r
  have hcp : computePareto (compute_default_score (add_z_scores sq (filterRows df)))
      = Except.ok [] := computePareto_nil h2r
  have h3r : (setCol (compute_default_score (add_z_scores sq (filterRows df)))
      "Is_Pareto" (([] : List Bool).map Val.bool)).rows = [] := setCol_rows_nil _ _ h2r
  have hmem : ∀ c0, c0 ∈ df.cols →
      c0 ∈ (setCol (compute_default_score (add_z_scores sq (filterRows df)))
        "Is_Pareto" (([] : List Bool).map Val.bool)).cols := by
    intro c0 hc0
    refine setCol_cols_mem _ _ (setCol_cols_mem _ _ (add_z_scores_cols_mem sq ?_))
    rw [h0]
    exact hc0
  have hbc : buildSuggestionCards (setCol (compute_default_score
      (add_z_scores sq (filterRows df))) "Is_Pareto" (([] : List Bool).map Val.bool)) ps
      = Except.ok [Card.noData] := by
    unfold buildSuggestionCards
    rw [if_pos (by rw [h3r]; rfl)]
  show ∃ rep, generateRest sq (filterRows df) ps = Except.ok rep ∧ _
  unfold generateRest
  dsimp only
  rw [hcp]
  dsimp only
  rw [if_pos (hmem _ hp), if_pos (fun p hp2 => hmem p (hps p hp2)), hbc]
  dsimp only
  refine ⟨_, rfl, rfl, rfl, rfl, ?_, ?_, rfl⟩
  · rw [h3r]
    rfl
  · unfold objCol
    rw [h3r]
    rfl

/-- A table whose rows are all dropped by the row filter and which has no
`Profit` column. -/
def c9bad : DF := ⟨["Trades"], [[("Trades", Val.num 0)]]⟩

/-- Counterexample to C9 as stated: `c9bad` filters to an empty table, yet
`generate_report` raises (the summary counters read
`pd.to_numeric(df.get("Profit", 0), ...).fillna(0)` with the column
absent), so "no error is raised" fails without the `Profit` proviso. -/
theorem c9_counterexample :
    (filterRows c9bad).rows = [] ∧
      isErr (generateReport (fun q => q) c9bad []) = true := by
  with_unfolding_all decide

/-- A table that filters to empty and keeps its `Profit` column. -/
def wdf9 : DF := ⟨["Trades", "Profit"], [[("Trades", Val.num 0), ("Profit", Val.num 1)]]⟩

/-- Witness for C9 on `wdf9`. -/
theorem c9_witness :
    ∃ rep, generateReport (fun q => q) wdf9 [] = Except.ok rep ∧
      rep.cards = [Card.noData] ∧ rep.cards.length = 1 ∧ rep.paretoFlags = [] ∧
      rep.totalRuns = 0 ∧ rep.validCount = 0 ∧ rep.paretoCount = 0 :=
  c9_empty_report (fun q => q) wdf9 [] (by with_unfolding_all decide)
    (by intro p hp; cases hp) (by with_unfolding_all rfl)

/-! ### Frame property of the mutating pipeline -/

theorem dfSetColM_get_ne (h : Heap) (r2 : Nat) (c : String) (vs : List Val) (r : Nat)
    (hne : r ≠ r2) : (dfSetColM h r2 c vs).dfs[r]? = h.dfs[r]? := by
  unfold dfSetColM
  exact List.getElem?_set_ne (fun hc => hne hc.symm)

theorem dfSetColM_length (h : Heap) (r2 : Nat) (c : String) (vs : List Val) :
    (dfSetColM h r2 c vs).dfs.length = h.dfs.length := by
  unfold dfSetColM
  exact List.length_set _ _ _

theorem heapAlloc_get (h : Heap) (d : DF) (r : Nat) (hr : r < h.dfs.length) :
    (heapAlloc h d).2.dfs[r]? = h.dfs[r]? := by
  unfold heapAlloc
  exact List.getElem?_append_left hr

theorem heapAlloc_length (h : Heap) (d : DF) :
    (heapAlloc h d).2.dfs.length = h.dfs.length + 1 := by
  unfold heapAlloc
  exact List.length_append _ _

theorem dfCopy_length (h : Heap) (r0 : Nat) :
    (dfCopy h r0).2.dfs.length = h.dfs.length + 1 := by
  unfold dfCopy
  exact heapAlloc_length _ _

theorem dfCopy_get (h : Heap) (r0 r : Nat) (hr : r < h.dfs.length) :
    (dfCopy h r0).2.dfs[r]? = h.dfs[r]? := by
  unfold dfCopy
  exact heapAlloc_get _ _ _ hr

theorem add_z_scores_prog_fst (sq : ℚ → ℚ) (h : Heap) (rsrc : Nat) :
    (add_z_scores_prog sq h rsrc).1 = h.dfs.length := by
  unfold add_z_scores_prog dfCopy heapAlloc
  rfl

theorem compute_default_score_prog_fst (h : Heap) (rsrc : Nat) :
    (compute_default_score_prog h rsrc).1 = h.dfs.length := by
  unfold compute_default_score_prog dfCopy heapAlloc
  rfl

theorem foldl_heap_pres {α : Type} (step : Heap → α → Heap) (r : Nat)
    (hstep : ∀ hh a, (step hh a).dfs[r]? = hh.dfs[r]? ∧
      (step hh a).dfs.length = hh.dfs.length) :
    ∀ (l : List α) (hh : Heap),
      (l.foldl step hh).dfs[r]? = hh.dfs[r]? ∧
        (l.foldl step hh).dfs.length = hh.dfs.length := by
  intro l
  induction l with
  | nil => intro hh; exact ⟨rfl, rfl⟩
  | cons a t ih =>
    intro hh
    rw [List.foldl_cons]
    obtain ⟨ih1, ih2⟩ := ih (step hh a)
    obtain ⟨hs1, hs2⟩ := hstep hh a
    exact ⟨ih1.trans hs1, ih2.trans hs2⟩

theorem add_z_scores_prog_pres (sq : ℚ → ℚ) (h : Heap) (rsrc r : Nat)
    (hr : r < h.dfs.length) :
    (add_z_scores_prog sq h rsrc).2.dfs[r]? = h.dfs[r]? ∧
      (add_z_scores_prog sq h rsrc).2.dfs.length = h.dfs.length + 1 := by
  unfold add_z_scores_prog
  dsimp only
  have hfold := foldl_heap_pres (fun hh m =>
      if m.2.1 ∈ (heapGet hh (dfCopy h rsrc).1).cols then
        dfSetColM hh (dfCopy h rsrc).1 m.2.2
          ((zscore sq (colVals (heapGet hh (dfCopy h rsrc).1) m.2.1)).map optToVal)
      else hh) r ?_ METRIC_DEF (dfCopy h rsrc).2
  · refine ⟨hfold.1.trans (heapAlloc_get h _ r hr), hfold.2.trans (heapAlloc_length h _)⟩
  · intro hh m
    dsimp only
    split
    · exact ⟨dfSetColM_get_ne hh _ _ _ r (Nat.ne_of_lt hr), dfSetColM_length hh _ _ _⟩
    · exact ⟨rfl, rfl⟩

theorem compute_default_score_prog_pres (h : Heap) (rsrc r : Nat)
    (hr : r < h.dfs.length) :
    (compute_default_score_prog h rsrc).2.dfs[r]? = h.dfs[r]? ∧
      (compute_default_score_prog h rsrc).2.dfs.length = h.dfs.length + 1 := by
  unfold compute_default_score_prog
  dsimp only
  constructor
  · exact (dfSetColM_get_ne _ _ _ _ r (Nat.ne_of_lt hr)).trans (heapAlloc_get h _ r hr)
  · exact (dfSetColM_length _ _ _ _).trans (heapAlloc_length h _)

/-- C10: the pipeline never mutates its argument. In the heap model, the
`add_z_scores`, `compute_default_score`, and `generate_report`
(lines 232-247) programs each copy first and assign derived columns
(z scores, `Score_Weighted`, `Is_Pareto`) only on freshly allocated
objects, so the dataframe at any pre-existing reference `r` is unchanged
after they run on it. -/
theorem c10_no_mutation (sq : ℚ → ℚ) (h : Heap) (r : Nat) (hr : r < h.dfs.length) :
    (add_z_scores_prog sq h r).2.dfs[r]? = h.dfs[r]? ∧
      (compute_default_score_prog h r).2.dfs[r]? = h.dfs[r]? ∧
      (generate_report_prog sq h r).2.dfs[r]? = h.dfs[r]? := by
  refine ⟨(add_z_scores_prog_pres sq h r r hr).1,
    (compute_default_score_prog_pres h r r hr).1, ?_⟩
  unfold generate_report_prog
  dsimp only
  have h1 : r < (dfCopy h r).2.dfs.length := by
    rw [dfCopy_length]
    exact Nat.lt_succ_of_lt hr
  have hg1 : (dfCopy h r).2.dfs[r]? = h.dfs[r]? := dfCopy_get h r r hr
  set p2 := if "Trades" ∈ (heapGet (dfCopy h r).2 (dfCopy h r).1).cols then
      heapAlloc (dfCopy h r).2 (filterRows (heapGet (dfCopy h r).2 (dfCopy h r).1))
    else dfCopy h r with hp2
  have h2 : r < p2.2.dfs.length ∧ p2.2.dfs[r]? = h.dfs[r]? := by
    rw [hp2]
    split
    · rw [heapAlloc_length]
      exact ⟨Nat.lt_succ_of_lt h1, (heapAlloc_get _ _ r h1).trans hg1⟩
    · exact ⟨h1, hg1⟩
  have h3 := add_z_scores_prog_pres sq p2.2 p2.1 r h2.1
  have h3r : r < (add_z_scores_prog sq p2.2 p2.1).2.dfs.length := by
    rw [h3.2]
    exact Nat.lt_succ_of_lt h2.1
  have h4 := compute_default_score_prog_pres (add_z_scores_prog sq p2.2 p2.1).2
    (add_z_scores_prog sq p2.2 p2.1).1 r h3r
  have h4r : r < (compute_default_score_prog (add_z_scores_prog sq p2.2 p2.1).2
      (add_z_scores_prog sq p2.2 p2.1).1).2.dfs.length := by
    rw [h4.2]
    exact Nat.lt_succ_of_lt h3r
  have hchain : (compute_default_score_prog (add_z_scores_prog sq p2.2 p2.1).2
      (add_z_scores_prog sq p2.2 p2.1).1).2.dfs[r]? = h.dfs[r]? :=
    (h4.1.trans h3.1).trans h2.2
  split
  · exact hchain
  · refine (dfSetColM_get_ne _ _ _ _ r ?_).trans hchain
    rw [compute_default_score_prog_fst]
    exact Nat.ne_of_lt h3r

/-- Witness for C10 on a one-dataframe heap. -/
theorem c10_witness :
    (add_z_scores_prog (fun q => q) ⟨[wdf9]⟩ 0).2.dfs[0]? = (⟨[wdf9]⟩ : Heap).dfs[0]? ∧
      (compute_default_score_prog ⟨[wdf9]⟩ 0).2.dfs[0]? = (⟨[wdf9]⟩ : Heap).dfs[0]? ∧
      (generate_report_prog (fun q => q) ⟨[wdf9]⟩ 0).2.dfs[0]? = (⟨[wdf9]⟩ : Heap).dfs[0]? :=
  c10_no_mutation (fun q => q) ⟨[wdf9]⟩ 0 (by with_unfolding_all decide)

end MT5
